import Mathlib

/-!
Shallow embedding of the transaction-execution core of the repository:

* `crates/rethnet_evm/src/block/builder.rs` — `BlockBuilder` (new,
  add_transaction, finalize, abort);
* `crates/rethnet_evm/src/runtime.rs` — `Rethnet` (dry_run,
  guaranteed_dry_run, run);
* `crates/edr_evm/src/inspector.rs` — `DualInspector`, `InspectorContainer`;
* `crates/rethnet_eth/src/transaction/signed/legacy.rs` — RLP encoding and
  decoding of `LegacySignedTransaction`.

Machine integers are modelled as `Nat` with explicit reduction modulo
`2 ^ 256` where `U256` arithmetic can overflow or underflow (the release
wrapping semantics of the `ruint` operators used by the source). The EVM
interpreter (`build_evm` / `evm.inspect`) is an external collaborator; it is
modelled as an arbitrary deterministic function parameter `EvmSem`, so that
theorems quantifying over it express facts that hold for every interpreter
behaviour, and independence from it expresses that the interpreter was never
invoked.
-/

/-- The modulus of 256-bit words. -/
def U256.W : Nat := 2 ^ 256

/-- Addition of `U256` values (release / wrapping semantics of `ruint`). -/
def U256.add (a b : Nat) : Nat := (a + b) % U256.W

/-- Subtraction of `U256` values (release / wrapping semantics of `ruint`):
`a - b` wraps modulo `2 ^ 256` when `b > a`. Arguments are assumed to be
representatives `< 2 ^ 256`. -/
def U256.sub (a b : Nat) : Nat := (a + (U256.W - b)) % U256.W

/-! ## Accounts and the asynchronous state store

`AsyncDatabase` (crate `rethnet_evm`, module `db`) is repository code that is
not part of the analysed sources. Modelled from the spec: the State Store
"holds account/storage state behind an asynchronous handle; supports
checkpoint, revert, apply-changeset, and read-modify-write account mutation",
where "revert returns state to exactly this marker" for the most recent
checkpoint marker. -/

/-- An account: balance, nonce, code (code abstracted to an opaque `Nat`
payload; the analysed code never inspects it). -/
structure Account where
  balance : Nat
  nonce : Nat
  code : Nat
deriving Repr, DecidableEq

/-- The full account state: a total map from addresses (abstracted to `Nat`)
to accounts. -/
def StoreState : Type := Nat → Account

/-- A changeset (revm `State`): an ordered collection of per-address account
writes produced by one execution. -/
def Changes : Type := List (Nat × Account)

/-- Applying a changeset writes each entry's account at its address. -/
def applyChanges (s : StoreState) (cs : Changes) : StoreState :=
  cs.foldl (fun st p => fun x => if x = p.1 then p.2 else st x) s

/-- Modelled from the spec: the store is an account state together with the
stack of checkpoint markers ("an opaque marker in the State Store's history").
-/
structure AsyncDatabase where
  state : StoreState
  checkpoints : List StoreState

/-- Errors surfaced by the store's `revert`. -/
inductive StateError where
  | nothingToRevert
deriving Repr, DecidableEq

/-- `apply(changeset)`: applies the changeset to the current state. -/
def AsyncDatabase.apply (db : AsyncDatabase) (cs : Changes) : AsyncDatabase :=
  { db with state := applyChanges db.state cs }

/-- `checkpoint()`: pushes the current state as a new marker. -/
def AsyncDatabase.checkpoint (db : AsyncDatabase) : AsyncDatabase :=
  { db with checkpoints := db.state :: db.checkpoints }

/-- `revert()`: returns the state to the most recent checkpoint marker,
failing when none exists. -/
def AsyncDatabase.revert (db : AsyncDatabase) :
    Except StateError AsyncDatabase :=
  match db.checkpoints with
  | [] => Except.error StateError.nothingToRevert
  | s :: rest => Except.ok { state := s, checkpoints := rest }

/-- `modify_account(address, f)`: read-modify-write of one account; the
closure receives balance, nonce and code and returns the updated triple. -/
def AsyncDatabase.modifyAccount (db : AsyncDatabase) (address : Nat)
    (f : Nat → Nat → Nat → Nat × Nat × Nat) : AsyncDatabase :=
  { db with
    state := fun x =>
      if x = address then
        let a := db.state x
        let r := f a.balance a.nonce a.code
        { balance := r.1, nonce := r.2.1, code := r.2.2 }
      else db.state x }

/-! ## Environments and the abstract interpreter -/

/-- revm `SpecId`: the hardfork identifier, compared by discriminant; only
the ordering relative to `MERGE` matters to the analysed code. -/
abbrev SpecId : Type := Nat

/-- Discriminant of `SpecId::MERGE` in the revm version used by the source. -/
def SpecId.MERGE : SpecId := (15 : Nat)

/-- revm `CfgEnv`: the fields read by the analysed code. -/
structure CfgEnv where
  spec_id : Nat
  disable_balance_check : Bool
deriving Repr, DecidableEq

/-- revm `TxEnv`: `gas_limit` is the declared gas limit (a `u64`); the rest
of the transaction is abstracted to an opaque payload. -/
structure TxEnv where
  gas_limit : Nat
  payload : Nat
deriving Repr, DecidableEq

/-- revm `BlockEnv`: the block environment handed to the interpreter. -/
structure BlockEnv where
  number : Nat
  coinbase : Nat
  timestamp : Nat
  difficulty : Nat
  basefee : Nat
  gas_limit : Nat
  prevrandao : Option Nat
deriving Repr, DecidableEq

/-- revm `ExecutionResult`: `gas_used` is the gas actually consumed; the rest
is abstracted to an opaque payload. -/
structure ExecutionResult where
  gas_used : Nat
  payload : Nat
deriving Repr, DecidableEq

/-- A structured trace: the ordered events collected by the inspector during
one execution (events abstracted to `Nat`). -/
abbrev Trace : Type := List Nat

/-- The outcome of one interpreter run (`evm.inspect` with a fresh
`RethnetInspector`): execution result, changeset, trace. -/
structure EvmOutcome where
  result : ExecutionResult
  changes : Changes
  trace : Trace

/-- The external interpreter (`build_evm` + `evm.inspect`), as an arbitrary
deterministic function of configuration, transaction, block environment and
current account state. -/
def EvmSem : Type := CfgEnv → TxEnv → BlockEnv → StoreState → EvmOutcome

/-! ## The `Rethnet` runtime (`crates/rethnet_evm/src/runtime.rs`) -/

/-- `TransactionError` (crate `rethnet_evm`, module `transaction`, not among
the analysed sources). Modelled from the spec: the Executor's precondition
failure `MissingPrevrandao`. -/
inductive TransactionError where
  | MissingPrevrandao
deriving Repr, DecidableEq

/-- The `Rethnet` runtime: blockchain view (opaque), store and config. -/
structure Rethnet where
  blockchain : Nat
  db : AsyncDatabase
  cfg : CfgEnv

/-- `Rethnet::dry_run`: checks the prevrandao precondition, then runs the
interpreter against the current state and returns result, changeset and
trace. Takes `&self`: the store is not written (`apply` is never called). -/
def Rethnet.dry_run (evm : EvmSem) (r : Rethnet) (transaction : TxEnv)
    (block : BlockEnv) :
    Except TransactionError (ExecutionResult × Changes × Trace) :=
  if SpecId.MERGE < r.cfg.spec_id ∧ block.prevrandao = none then
    Except.error TransactionError.MissingPrevrandao
  else
    let out := evm r.cfg transaction block r.db.state
    Except.ok (out.result, out.changes, out.trace)

/-- `Rethnet::guaranteed_dry_run`: as `dry_run` but with
`disable_balance_check` set on the configuration handed to the interpreter.
-/
def Rethnet.guaranteed_dry_run (evm : EvmSem) (r : Rethnet)
    (transaction : TxEnv) (block : BlockEnv) :
    Except TransactionError (ExecutionResult × Changes × Trace) :=
  if SpecId.MERGE < r.cfg.spec_id ∧ block.prevrandao = none then
    Except.error TransactionError.MissingPrevrandao
  else
    let cfg := { r.cfg with disable_balance_check := true }
    let out := evm cfg transaction block r.db.state
    Except.ok (out.result, out.changes, out.trace)

/-- `Rethnet::run`: performs `dry_run`, then applies the changeset to the
store; returns result and trace together with the updated runtime. -/
def Rethnet.run (evm : EvmSem) (r : Rethnet) (transaction : TxEnv)
    (block : BlockEnv) :
    Except TransactionError (ExecutionResult × Trace) × Rethnet :=
  match Rethnet.dry_run evm r transaction block with
  | Except.error e => (Except.error e, r)
  | Except.ok (result, changes, trace) =>
      (Except.ok (result, trace), { r with db := r.db.apply changes })

/-! ## The `BlockBuilder` (`crates/rethnet_evm/src/block/builder.rs`) -/

/-- `BlockTransactionError` from `builder.rs`. -/
inductive BlockTransactionError where
  | ExceedsBlockGasLimit
deriving Repr, DecidableEq

/-- `rethnet_eth::block::Header` (not among the analysed sources): the parent
header fields read by `BlockBuilder::new`. Modelled from the spec: the parent
header seeds the new block header. -/
structure Header where
  parent_hash : Nat
  number : Nat
  gas_limit : Nat
deriving Repr, DecidableEq

/-- `rethnet_eth::block::PartialHeader` (not among the analysed sources).
Modelled from the spec: "a header template (parent hash, number, gas limit,
gas used, beneficiary, timestamp, difficulty/basefee, optional random-beacon
value)"; every field not set explicitly takes its type default. -/
structure PartialHeader where
  parent_hash : Nat
  beneficiary : Nat
  number : Nat
  gas_limit : Nat
  gas_used : Nat
  timestamp : Nat
  difficulty : Nat
  base_fee : Option Nat
  mix_hash : Nat
deriving Repr, DecidableEq

/-- The `Default` value of `PartialHeader`: all fields their type defaults. -/
def PartialHeader.default : PartialHeader :=
  { parent_hash := 0, beneficiary := 0, number := 0, gas_limit := 0
    gas_used := 0, timestamp := 0, difficulty := 0, base_fee := none
    mix_hash := 0 }

/-- `rethnet_evm::HeaderData` (not among the analysed sources). Modelled from
the spec: optional caller overrides for parent hash, number and gas limit. -/
structure HeaderData where
  parent_hash : Option Nat
  number : Option Nat
  gas_limit : Option Nat
deriving Repr, DecidableEq

/-- The block builder: blockchain view (opaque), store, pending header,
accepted transactions, config. -/
structure BlockBuilder where
  blockchain : Nat
  db : AsyncDatabase
  header : PartialHeader
  transactions : List TxEnv
  cfg : CfgEnv

/-- `BlockBuilder::new`: computes the pending header (parent hash, number and
gas limit defaulting from the parent header, number as parent's number plus
one; everything else type defaults). The source's `db.checkpoint()` call is
commented out (a `TODO`), so no checkpoint is taken, and the store is
untouched. -/
def BlockBuilder.new (blockchain : Nat) (db : AsyncDatabase) (cfg : CfgEnv)
    (parent : Header) (header : HeaderData) : BlockBuilder :=
  let header : PartialHeader :=
    { PartialHeader.default with
      parent_hash := header.parent_hash.getD parent.parent_hash
      number := header.number.getD (U256.add parent.number 1)
      gas_limit := header.gas_limit.getD parent.gas_limit }
  { blockchain := blockchain, db := db, header := header
    transactions := [], cfg := cfg }

/-- `BlockBuilder::gas_used`. -/
def BlockBuilder.gas_used (b : BlockBuilder) : Nat := b.header.gas_used

/-- `BlockBuilder::gas_remaining`: `header.gas_limit - gas_used` in `U256`
arithmetic. -/
def BlockBuilder.gas_remaining (b : BlockBuilder) : Nat :=
  U256.sub b.header.gas_limit b.gas_used

/-- The `BlockEnv` literal built inside `BlockBuilder::add_transaction` from
the pending header: coinbase, timestamp, difficulty, basefee (zero when the
header has none), gas limit, and a prevrandao value only when the spec is
strictly past `MERGE`. -/
def BlockBuilder.blockEnv (b : BlockBuilder) : BlockEnv :=
  { number := b.header.number
    coinbase := b.header.beneficiary
    timestamp := b.header.timestamp
    difficulty := b.header.difficulty
    basefee := b.header.base_fee.getD 0
    gas_limit := b.header.gas_limit
    prevrandao :=
      if SpecId.MERGE < b.cfg.spec_id then some b.header.mix_hash
      else none }

/-- `BlockBuilder::add_transaction`: rejects with `ExceedsBlockGasLimit` when
the transaction's gas limit exceeds the remaining block gas; otherwise
appends the transaction, builds the block environment, runs the interpreter,
applies the changeset to the store and adds the consumed gas to `gas_used`.
-/
def BlockBuilder.add_transaction (evm : EvmSem) (b : BlockBuilder)
    (transaction : TxEnv) :
    Except BlockTransactionError (ExecutionResult × Trace) × BlockBuilder :=
  if b.gas_remaining < transaction.gas_limit then
    (Except.error BlockTransactionError.ExceedsBlockGasLimit, b)
  else
    let out := evm b.cfg transaction b.blockEnv b.db.state
    (Except.ok (out.result, out.trace),
     { b with
       transactions := b.transactions ++ [transaction]
       db := b.db.apply out.changes
       header :=
         { b.header with
           gas_used := U256.add b.header.gas_used out.result.gas_used } })

/-- Repeated `add_transaction` calls in invocation order, keeping only the
builder state (failing calls leave it unchanged). -/
def BlockBuilder.addAll (evm : EvmSem) (b : BlockBuilder)
    (txs : List TxEnv) : BlockBuilder :=
  txs.foldl (fun st transaction =>
    (BlockBuilder.add_transaction evm st transaction).2) b

/-- `BlockBuilder::finalize`: for each reward entry in list order, a
read-modify-write adding the amount to that address's balance (the closure
passed to `modify_account` is `*balance += reward`). -/
def BlockBuilder.finalize (b : BlockBuilder) (rewards : List (Nat × Nat)) :
    AsyncDatabase :=
  rewards.foldl
    (fun db p =>
      db.modifyAccount p.1 (fun balance nonce code =>
        (U256.add balance p.2, nonce, code)))
    b.db

/-- `BlockBuilder::abort`: reverts the store. -/
def BlockBuilder.abort (b : BlockBuilder) : Except StateError AsyncDatabase :=
  b.db.revert

/-! ## The inspector compositor (`crates/edr_evm/src/inspector.rs`)

The revm `Inspector` trait is modelled as a record of state-passing hook
functions. Every `&mut` argument of a Rust hook appears both as an argument
and in the result; payloads passed by value or by shared reference appear
only as arguments. Interpreter, context, inputs, results and addresses are
abstracted to `Nat` (the dispatch logic of `DualInspector` never inspects
them). The field `initInterp` models the trait method `initialize_interp`. -/

structure InspectorSem (S : Type) where
  initInterp : S → Nat → Nat → S × Nat × Nat
  step : S → Nat → Nat → S × Nat × Nat
  log : S → Nat → Nat × List Nat × List Nat → S × Nat
  step_end : S → Nat → Nat → S × Nat × Nat
  call : S → Nat → Nat → S × Nat × Nat × Option (Nat × Nat)
  call_end : S → Nat → Nat → S × Nat × Nat
  create : S → Nat → Nat → S × Nat × Nat × Option (Nat × Option Nat)
  create_end : S → Nat → Nat → Option Nat → S × Nat × (Nat × Option Nat)
  selfdestruct : S → Nat → Nat → Nat → S

/-- `impl Inspector for DualInspector`: for every hook the immutable
(collector) inspector runs first, then the mutable (observer) inspector runs
on the context/inputs as left by the collector; returned values come solely
from the mutable inspector (the collector's are discarded). The `call_end`
and `create_end` payloads are passed to the collector as a clone, so the
observer receives the original, unmodified values. The dual's state is the
pair (immutable state, mutable state). -/
def DualInspector.sem {SA SB : Type} (A : InspectorSem SA)
    (B : InspectorSem SB) : InspectorSem (SA × SB) where
  initInterp := fun s interp context =>
    let pa := A.initInterp s.1 interp context
    let pb := B.initInterp s.2 pa.2.1 pa.2.2
    ((pa.1, pb.1), pb.2.1, pb.2.2)
  step := fun s interp context =>
    let pa := A.step s.1 interp context
    let pb := B.step s.2 pa.2.1 pa.2.2
    ((pa.1, pb.1), pb.2.1, pb.2.2)
  log := fun s context args =>
    let pa := A.log s.1 context args
    let pb := B.log s.2 pa.2 args
    ((pa.1, pb.1), pb.2)
  step_end := fun s interp context =>
    let pa := A.step_end s.1 interp context
    let pb := B.step_end s.2 pa.2.1 pa.2.2
    ((pa.1, pb.1), pb.2.1, pb.2.2)
  call := fun s context inputs =>
    let pa := A.call s.1 context inputs
    let pb := B.call s.2 pa.2.1 pa.2.2.1
    ((pa.1, pb.1), pb.2.1, pb.2.2.1, pb.2.2.2)
  call_end := fun s context result =>
    let pa := A.call_end s.1 context result
    let pb := B.call_end s.2 pa.2.1 result
    ((pa.1, pb.1), pb.2.1, pb.2.2)
  create := fun s context inputs =>
    let pa := A.create s.1 context inputs
    let pb := B.create s.2 pa.2.1 pa.2.2.1
    ((pa.1, pb.1), pb.2.1, pb.2.2.1, pb.2.2.2)
  create_end := fun s context result address =>
    let pa := A.create_end s.1 context result address
    let pb := B.create_end s.2 pa.2.1 result address
    ((pa.1, pb.1), pb.2.1, pb.2.2)
  selfdestruct := fun s contract target value =>
    (A.selfdestruct s.1 contract target value,
     B.selfdestruct s.2 contract target value)

/-- Replaces only the returned-value components of the four value-returning
hooks of an inspector, leaving all state and context effects untouched. Used
to express that the dual's decisions do not depend on the collector's
returned values. -/
def InspectorSem.withReturns {S : Type} (A : InspectorSem S)
    (fCall : S → Nat → Nat → Option (Nat × Nat))
    (fCallEnd : S → Nat → Nat → Nat)
    (fCreate : S → Nat → Nat → Option (Nat × Option Nat))
    (fCreateEnd : S → Nat → Nat → Option Nat → Nat × Option Nat) :
    InspectorSem S :=
  { A with
    call := fun s c i =>
      let p := A.call s c i
      (p.1, p.2.1, p.2.2.1, fCall s c i)
    call_end := fun s c r =>
      let p := A.call_end s c r
      (p.1, p.2.1, fCallEnd s c r)
    create := fun s c i =>
      let p := A.create s c i
      (p.1, p.2.1, p.2.2.1, fCreate s c i)
    create_end := fun s c r a =>
      let p := A.create_end s c r a
      (p.1, p.2.1, fCreateEnd s c r a) }

/-- `TraceCollector` (crate `edr_evm`, module `trace`, not among the analysed
sources). Modelled from the spec: a passive collector accumulating the
ordered trace events of one execution; its `Default` is the empty trace. -/
structure TraceCollector where
  trace : Trace
deriving Repr, DecidableEq

/-- `TraceCollector::default()`: an empty trace. -/
def TraceCollector.empty : TraceCollector := { trace := [] }

/-- `TraceCollector::into_trace`. -/
def TraceCollector.intoTrace (c : TraceCollector) : Trace := c.trace

/-- `InspectorContainer`: the four compositor variants — no inspector or
tracer; only a tracer; both (the `DualInspector` of an owned collector and a
borrowed observer); only an inspector. The borrowed observer is abstracted to
an arbitrary type `Obs`. -/
inductive InspectorContainer (Obs : Type) where
  | none
  | collector (c : TraceCollector)
  | dual (immutable : TraceCollector) (mutable : Obs)
  | inspector (obs : Obs)

/-- `InspectorContainer::new`. -/
def InspectorContainer.new {Obs : Type} (withTrace : Bool)
    (tracer : Option Obs) : InspectorContainer Obs :=
  if withTrace then
    match tracer with
    | some t => InspectorContainer.dual TraceCollector.empty t
    | Option.none => InspectorContainer.collector TraceCollector.empty
  else
    match tracer with
    | some t => InspectorContainer.inspector t
    | Option.none => InspectorContainer.none

/-- `InspectorContainer::clear_trace`: swaps the owned collector for a fresh
default one (`mem::take`) and returns the previous trace; `None` when no
collector is owned. Returns the pair (returned trace, container afterwards).
-/
def InspectorContainer.clear_trace {Obs : Type} :
    InspectorContainer Obs → Option Trace × InspectorContainer Obs
  | InspectorContainer.none => (Option.none, InspectorContainer.none)
  | InspectorContainer.inspector t => (Option.none, InspectorContainer.inspector t)
  | InspectorContainer.collector c =>
      (some c.intoTrace, InspectorContainer.collector TraceCollector.empty)
  | InspectorContainer.dual c m =>
      (some c.intoTrace, InspectorContainer.dual TraceCollector.empty m)

/-! ## RLP encoding of `LegacySignedTransaction`
(`crates/rethnet_eth/src/transaction/signed/legacy.rs`)

RLP is modelled at the structural level — an item is a byte string or a list
of items; byte-level framing is the external `rlp` crate's concern. Unsigned
integers are encoded as their minimal big-endian byte string; the decoder
rejects leading zeroes and over-long strings, exactly as the `rlp` crate's
integer codecs do. -/

/-- A structural RLP item: a byte string or a list of items. -/
inductive RlpItem where
  | str (bytes : List Nat)
  | list (l : List RlpItem)

/-- Decoder errors of the `rlp` crate that the modelled code paths can
surface. -/
inductive DecoderError where
  | RlpIncorrectListLen
  | RlpExpectedToBeList
  | RlpExpectedToBeData
  | RlpInvalidIndirection
  | RlpIsTooBig
  | RlpIsTooShort
  | RlpInvalidLength
deriving Repr, DecidableEq

/-- The little-endian base-256 digits of a natural number (no trailing
zeroes). -/
def leDigits : Nat → List Nat
  | 0 => []
  | n + 1 => ((n + 1) % 256) :: leDigits ((n + 1) / 256)
decreasing_by exact Nat.div_lt_self (Nat.succ_pos n) (by omega)

/-- The minimal big-endian byte string of a natural number (empty for 0). -/
def beBytes (n : Nat) : List Nat := (leDigits n).reverse

/-- Reads a big-endian byte string back into a natural number. -/
def fromBE (bs : List Nat) : Nat := bs.foldl (fun acc b => acc * 256 + b) 0

/-- The `rlp` crate's unsigned-integer decoding of a byte string for a type
of `maxLen` bytes: empty is zero; a leading zero byte or an over-long string
is rejected. -/
def decUIntBytes (maxLen : Nat) (bs : List Nat) : Except DecoderError Nat :=
  match bs with
  | [] => Except.ok 0
  | b :: _ =>
      if b = 0 then Except.error DecoderError.RlpInvalidIndirection
      else if bs.length ≤ maxLen then Except.ok (fromBE bs)
      else Except.error DecoderError.RlpIsTooBig

/-- The byte string of an RLP item (`decode_value`); a list is rejected. -/
def RlpItem.asData : RlpItem → Except DecoderError (List Nat)
  | RlpItem.str bs => Except.ok bs
  | RlpItem.list _ => Except.error DecoderError.RlpExpectedToBeData

/-- `item_count()`: the length of a list item; a string is rejected. -/
def RlpItem.itemCount : RlpItem → Except DecoderError Nat
  | RlpItem.str _ => Except.error DecoderError.RlpExpectedToBeList
  | RlpItem.list l => Except.ok l.length

/-- `at(i)` on a list item. -/
def RlpItem.valAt : RlpItem → Nat → Except DecoderError RlpItem
  | RlpItem.str _, _ => Except.error DecoderError.RlpExpectedToBeList
  | RlpItem.list l, i =>
      match l.get? i with
      | some it => Except.ok it
      | Option.none => Except.error DecoderError.RlpIsTooShort

/-- `val_at::<uint>(i)`: fetch the i-th item and decode it as an unsigned
integer of at most `maxLen` bytes. -/
def valNatAt (maxLen : Nat) (rlp : RlpItem) (i : Nat) :
    Except DecoderError Nat := do
  let it ← rlp.valAt i
  let bs ← it.asData
  decUIntBytes maxLen bs

/-- `val_at::<Vec<u8>>(i)`: fetch the i-th item as a raw byte string. -/
def valBytesAt (rlp : RlpItem) (i : Nat) : Except DecoderError (List Nat) := do
  let it ← rlp.valAt i
  it.asData

/-- The RLP item of an unsigned integer: its minimal big-endian bytes. -/
def encU (n : Nat) : RlpItem := RlpItem.str (beBytes n)

/-- `rethnet_eth::transaction::kind::TransactionKind` (not among the analysed
sources). Modelled from the spec: the target of a transaction — a call to a
20-byte address, or a contract creation. -/
inductive TransactionKind where
  | call (address : List Nat)
  | create
deriving Repr, DecidableEq

/-- Modelled from the spec: a call encodes as the address byte string, a
creation as the empty byte string. -/
def TransactionKind.rlpAppend : TransactionKind → RlpItem
  | TransactionKind.call a => RlpItem.str a
  | TransactionKind.create => RlpItem.str []

/-- Modelled from the spec: the decoder accepts the empty byte string as a
creation and a 20-byte string as a call address, rejecting anything else. -/
def TransactionKind.decode (item : RlpItem) :
    Except DecoderError TransactionKind := do
  let bs ← item.asData
  if bs.isEmpty then pure TransactionKind.create
  else if bs.length = 20 then pure (TransactionKind.call bs)
  else throw DecoderError.RlpInvalidLength

/-- `val_at::<TransactionKind>(i)`. -/
def valKindAt (rlp : RlpItem) (i : Nat) :
    Except DecoderError TransactionKind := do
  let it ← rlp.valAt i
  TransactionKind.decode it

/-- `rethnet_eth::signature::Signature` (not among the analysed sources).
Modelled from the spec: the fields `r`, `s` (256-bit) and `v` (64-bit) that
the analysed encoder and decoder access directly. -/
structure Signature where
  r : Nat
  s : Nat
  v : Nat
deriving Repr, DecidableEq

/-- `LegacySignedTransaction`: nonce and gas limit are `u64`, gas price and
value `U256`, input a byte string. -/
structure LegacySignedTransaction where
  nonce : Nat
  gas_price : Nat
  gas_limit : Nat
  kind : TransactionKind
  value : Nat
  input : List Nat
  signature : Signature
deriving Repr, DecidableEq

/-- `impl rlp::Encodable for LegacySignedTransaction`: a 9-item list of
nonce, gas price, gas limit, kind, value, input, v, r, s. -/
def LegacySignedTransaction.rlpAppend (t : LegacySignedTransaction) :
    RlpItem :=
  RlpItem.list
    [encU t.nonce, encU t.gas_price, encU t.gas_limit, t.kind.rlpAppend,
     encU t.value, RlpItem.str t.input, encU t.signature.v,
     encU t.signature.r, encU t.signature.s]

/-- `impl rlp::Decodable for LegacySignedTransaction`: rejects any list whose
item count differs from 9, then decodes v, r, s and the remaining fields by
index. -/
def LegacySignedTransaction.decode (rlp : RlpItem) :
    Except DecoderError LegacySignedTransaction := do
  let count ← rlp.itemCount
  if count ≠ 9 then
    throw DecoderError.RlpIncorrectListLen
  else
    let v ← valNatAt 8 rlp 6
    let r ← valNatAt 32 rlp 7
    let s ← valNatAt 32 rlp 8
    let nonce ← valNatAt 8 rlp 0
    let gas_price ← valNatAt 32 rlp 1
    let gas_limit ← valNatAt 8 rlp 2
    let kind ← valKindAt rlp 3
    let value ← valNatAt 32 rlp 4
    let input ← valBytesAt rlp 5
    pure { nonce := nonce, gas_price := gas_price, gas_limit := gas_limit
           kind := kind, value := value, input := input
           signature := { r := r, s := s, v := v } }

/-- Well-formedness of a transaction kind: call addresses are 20 bytes. -/
def TransactionKind.wf : TransactionKind → Prop
  | TransactionKind.call a => a.length = 20
  | TransactionKind.create => True

/-! ## Concrete fixtures used by evaluation and witness theorems -/

/-- The zero account. -/
def accZero : Account := { balance := 0, nonce := 0, code := 0 }

/-- A store with all-zero accounts and no checkpoint in its history. -/
def dbEmpty : AsyncDatabase := { state := fun _ => accZero, checkpoints := [] }

/-- A configuration exactly at the merge spec. -/
def cfgMerge : CfgEnv := { spec_id := 15, disable_balance_check := false }

/-- A configuration strictly past the merge spec. -/
def cfgPostMerge : CfgEnv := { spec_id := 16, disable_balance_check := false }

/-- A concrete parent header. -/
def parentHeader : Header := { parent_hash := 11, number := 41, gas_limit := 1000 }

/-- No header overrides. -/
def noOverrides : HeaderData := { parent_hash := none, number := none, gas_limit := none }

/-- Header overrides for all three fields. -/
def allOverrides : HeaderData := { parent_hash := some 77, number := some 90, gas_limit := some 555 }

/-- An interpreter that consumes 5 gas, writes balance 7 at address 1 and
produces a one-event trace, whatever its inputs. -/
def evmWrite7 : EvmSem := fun _ _ _ _ =>
  { result := { gas_used := 5, payload := 0 }
    changes := [(1, { balance := 7, nonce := 0, code := 0 })]
    trace := [3] }

/-- An interpreter that always consumes at most the declared gas limit. -/
def evmMin : EvmSem := fun _ transaction _ _ =>
  { result := { gas_used := min transaction.gas_limit 21000, payload := 0 }
    changes := [], trace := [] }

/-- A builder with block gas limit 100 and nothing used. -/
def bldr100 : BlockBuilder :=
  { blockchain := 0, db := dbEmpty
    header := { PartialHeader.default with gas_limit := 100 }
    transactions := [], cfg := cfgMerge }

/-- A transaction declaring more gas than `bldr100` has left. -/
def tx200 : TxEnv := { gas_limit := 200, payload := 0 }

/-- A small transaction. -/
def tx50 : TxEnv := { gas_limit := 50, payload := 1 }

/-- A runtime at the merge spec. -/
def rethnetMerge : Rethnet := { blockchain := 0, db := dbEmpty, cfg := cfgMerge }

/-- A runtime strictly past the merge spec. -/
def rethnetPost : Rethnet := { blockchain := 0, db := dbEmpty, cfg := cfgPostMerge }

/-- A block environment with no random-beacon value. -/
def blockNoRandao : BlockEnv :=
  { number := 1, coinbase := 2, timestamp := 3, difficulty := 4, basefee := 5
    gas_limit := 1000, prevrandao := none }

/-- A concrete legacy signed transaction (a contract creation). -/
def legacyTxC : LegacySignedTransaction :=
  { nonce := 3, gas_price := 1000, gas_limit := 21000
    kind := TransactionKind.create, value := 12, input := [0, 1, 255]
    signature := { r := 6, s := 7, v := 27 } }

/-! ## Arithmetic and characterization lemmas -/

theorem U256.add_eq_of_lt (a b : Nat) (h : a + b < U256.W) :
    U256.add a b = a + b := Nat.mod_eq_of_lt h

theorem U256.sub_eq_of_le (a b : Nat) (hba : b ≤ a) (ha : a < U256.W) :
    U256.sub a b = a - b := by
  unfold U256.sub
  have h1 : a + (U256.W - b) = U256.W + (a - b) := by omega
  rw [h1, Nat.add_mod_left]
  exact Nat.mod_eq_of_lt (by omega)

/-- When the gas check fails, `add_transaction` returns the error and the
untouched builder, for every interpreter. -/
theorem BlockBuilder.add_transaction_exceeding (evm : EvmSem)
    (b : BlockBuilder) (transaction : TxEnv)
    (hcond : b.gas_remaining < transaction.gas_limit) :
    BlockBuilder.add_transaction evm b transaction =
      (Except.error BlockTransactionError.ExceedsBlockGasLimit, b) := by
  unfold BlockBuilder.add_transaction
  rw [if_pos hcond]

/-- When the gas check passes, `add_transaction` returns the interpreter's
result and trace, appends the transaction, applies the changeset and adds
the consumed gas. -/
theorem BlockBuilder.add_transaction_within (evm : EvmSem)
    (b : BlockBuilder) (transaction : TxEnv)
    (hcond : ¬ b.gas_remaining < transaction.gas_limit) :
    BlockBuilder.add_transaction evm b transaction =
      (Except.ok ((evm b.cfg transaction b.blockEnv b.db.state).result,
                  (evm b.cfg transaction b.blockEnv b.db.state).trace),
       { b with
         transactions := b.transactions ++ [transaction]
         db := b.db.apply (evm b.cfg transaction b.blockEnv b.db.state).changes
         header :=
           { b.header with
             gas_used :=
               U256.add b.header.gas_used
                 (evm b.cfg transaction b.blockEnv b.db.state).result.gas_used } }) := by
  unfold BlockBuilder.add_transaction
  rw [if_neg hcond]

/-- `gas_remaining` agrees with Nat subtraction under the gas invariant. -/
theorem BlockBuilder.gas_remaining_eq (b : BlockBuilder)
    (hgu : b.header.gas_used ≤ b.header.gas_limit)
    (hgl : b.header.gas_limit < U256.W) :
    b.gas_remaining = b.header.gas_limit - b.header.gas_used := by
  unfold BlockBuilder.gas_remaining BlockBuilder.gas_used
  exact U256.sub_eq_of_le _ _ hgu hgl

/-- C1: for a builder in the Building state satisfying the gas invariant,
a transaction whose declared gas limit exceeds the remaining block gas
(`header.gas_limit - header.gas_used`) is rejected with
`ExceedsBlockGasLimit`; the returned builder is the input builder itself
(gas used, pending transaction list and store byte-identical), and the
outcome is the same for every interpreter, so no execution is attempted. -/
theorem C1_add_transaction_rejects_exceeding_gas (b : BlockBuilder)
    (transaction : TxEnv)
    (hgu : b.header.gas_used ≤ b.header.gas_limit)
    (hgl : b.header.gas_limit < U256.W)
    (h : b.header.gas_limit - b.header.gas_used < transaction.gas_limit) :
    ∀ evm : EvmSem,
      BlockBuilder.add_transaction evm b transaction =
        (Except.error BlockTransactionError.ExceedsBlockGasLimit, b) := by
  intro evm
  refine BlockBuilder.add_transaction_exceeding evm b transaction ?_
  rw [BlockBuilder.gas_remaining_eq b hgu hgl]
  exact h

/-- Witness for C1 at a concrete builder and transaction. -/
theorem C1_add_transaction_rejects_exceeding_gas_witness :
    BlockBuilder.add_transaction evmWrite7 bldr100 tx200 =
      (Except.error BlockTransactionError.ExceedsBlockGasLimit, bldr100) :=
  C1_add_transaction_rejects_exceeding_gas bldr100 tx200 (by decide) (by decide)
    (by decide) evmWrite7

/-- A successful call adds exactly the consumed gas to `gas_used`, keeps the
gas limit, and keeps `gas_used` within the limit. -/
theorem BlockBuilder.add_transaction_ok_gas (evm : EvmSem) (b : BlockBuilder)
    (transaction : TxEnv) (res : ExecutionResult) (trace : Trace)
    (b' : BlockBuilder)
    (Hevm : ∀ cfg transaction block st,
      (evm cfg transaction block st).result.gas_used ≤ transaction.gas_limit)
    (hgu : b.header.gas_used ≤ b.header.gas_limit)
    (hgl : b.header.gas_limit < U256.W)
    (hok : BlockBuilder.add_transaction evm b transaction =
      (Except.ok (res, trace), b')) :
    b'.header.gas_used = b.header.gas_used + res.gas_used ∧
    b'.header.gas_limit = b.header.gas_limit ∧
    b'.header.gas_used ≤ b'.header.gas_limit := by
  by_cases hcond : b.gas_remaining < transaction.gas_limit
  · rw [BlockBuilder.add_transaction_exceeding evm b transaction hcond] at hok
    simp at hok
  · rw [BlockBuilder.add_transaction_within evm b transaction hcond] at hok
    have hle : transaction.gas_limit ≤ b.header.gas_limit - b.header.gas_used := by
      rw [← BlockBuilder.gas_remaining_eq b hgu hgl]
      exact Nat.not_lt.mp hcond
    have hcons : (evm b.cfg transaction b.blockEnv b.db.state).result.gas_used ≤
        transaction.gas_limit := Hevm _ _ _ _
    have hres : res = (evm b.cfg transaction b.blockEnv b.db.state).result := by
      have hfst := congrArg Prod.fst hok
      simp only [Except.ok.injEq, Prod.mk.injEq] at hfst
      exact hfst.1.symm
    have hb' : b' =
        { b with
          transactions := b.transactions ++ [transaction]
          db := b.db.apply (evm b.cfg transaction b.blockEnv b.db.state).changes
          header :=
            { b.header with
              gas_used :=
                U256.add b.header.gas_used
                  (evm b.cfg transaction b.blockEnv b.db.state).result.gas_used } } :=
      (congrArg Prod.snd hok).symm
    subst hb'
    have hadd : U256.add b.header.gas_used
        (evm b.cfg transaction b.blockEnv b.db.state).result.gas_used =
        b.header.gas_used +
          (evm b.cfg transaction b.blockEnv b.db.state).result.gas_used :=
      U256.add_eq_of_lt _ _ (by omega)
    refine ⟨?_, rfl, ?_⟩
    · rw [hres]
      exact hadd
    · show U256.add b.header.gas_used
        (evm b.cfg transaction b.blockEnv b.db.state).result.gas_used ≤
        b.header.gas_limit
      rw [hadd]
      omega

/-- Every call — successful or rejected — keeps the gas limit, never lowers
`gas_used`, and keeps `gas_used` within the limit. -/
theorem BlockBuilder.add_transaction_invariant (evm : EvmSem)
    (b : BlockBuilder) (transaction : TxEnv)
    (Hevm : ∀ cfg transaction block st,
      (evm cfg transaction block st).result.gas_used ≤ transaction.gas_limit)
    (hgu : b.header.gas_used ≤ b.header.gas_limit)
    (hgl : b.header.gas_limit < U256.W) :
    (BlockBuilder.add_transaction evm b transaction).2.header.gas_limit =
        b.header.gas_limit ∧
    b.header.gas_used ≤
        (BlockBuilder.add_transaction evm b transaction).2.header.gas_used ∧
    (BlockBuilder.add_transaction evm b transaction).2.header.gas_used ≤
        (BlockBuilder.add_transaction evm b transaction).2.header.gas_limit := by
  by_cases hcond : b.gas_remaining < transaction.gas_limit
  · rw [BlockBuilder.add_transaction_exceeding evm b transaction hcond]
    exact ⟨rfl, le_refl _, hgu⟩
  · obtain ⟨h1, h2, h3⟩ := BlockBuilder.add_transaction_ok_gas evm b transaction
      (evm b.cfg transaction b.blockEnv b.db.state).result
      (evm b.cfg transaction b.blockEnv b.db.state).trace
      (BlockBuilder.add_transaction evm b transaction).2 Hevm hgu hgl
      (by rw [BlockBuilder.add_transaction_within evm b transaction hcond])
    exact ⟨h2, by omega, by omega⟩

/-- The gas invariant propagated through any sequence of calls. -/
theorem BlockBuilder.addAll_invariant (evm : EvmSem)
    (Hevm : ∀ cfg transaction block st,
      (evm cfg transaction block st).result.gas_used ≤ transaction.gas_limit) :
    ∀ (txs : List TxEnv) (b : BlockBuilder),
      b.header.gas_used ≤ b.header.gas_limit → b.header.gas_limit < U256.W →
      (BlockBuilder.addAll evm b txs).header.gas_limit = b.header.gas_limit ∧
      b.header.gas_used ≤ (BlockBuilder.addAll evm b txs).header.gas_used ∧
      (BlockBuilder.addAll evm b txs).header.gas_used ≤
        (BlockBuilder.addAll evm b txs).header.gas_limit := by
  intro txs
  induction txs with
  | nil => exact fun b hgu _ => ⟨rfl, le_refl _, hgu⟩
  | cons transaction rest ih =>
    intro b hgu hgl
    obtain ⟨s1, s2, s3⟩ :=
      BlockBuilder.add_transaction_invariant evm b transaction Hevm hgu hgl
    obtain ⟨r1, r2, r3⟩ := ih (BlockBuilder.add_transaction evm b transaction).2
      s3 (s1 ▸ hgl)
    refine ⟨?_, ?_, r3⟩
    · show (BlockBuilder.addAll evm
        (BlockBuilder.add_transaction evm b transaction).2 rest).header.gas_limit =
        b.header.gas_limit
      rw [r1, s1]
    · exact le_trans s2 r2

/-- C2: with an interpreter that never consumes more than the declared gas
limit and a builder satisfying the gas invariant, a successful
`add_transaction` call ends with `gas_used` equal to the previous `gas_used`
plus the gas actually consumed, and over every sequence of calls `gas_used`
is monotonically non-decreasing and never exceeds the header gas limit. -/
theorem C2_gas_used_accounting (evm : EvmSem) (b : BlockBuilder)
    (Hevm : ∀ cfg transaction block st,
      (evm cfg transaction block st).result.gas_used ≤ transaction.gas_limit)
    (hgu : b.header.gas_used ≤ b.header.gas_limit)
    (hgl : b.header.gas_limit < U256.W) :
    (∀ transaction res trace b',
        BlockBuilder.add_transaction evm b transaction =
          (Except.ok (res, trace), b') →
        b'.header.gas_used = b.header.gas_used + res.gas_used) ∧
    (∀ txs : List TxEnv,
        b.header.gas_used ≤ (BlockBuilder.addAll evm b txs).header.gas_used ∧
        (BlockBuilder.addAll evm b txs).header.gas_used ≤
          b.header.gas_limit) := by
  constructor
  · intro transaction res trace b' hok
    exact (BlockBuilder.add_transaction_ok_gas evm b transaction res trace b'
      Hevm hgu hgl hok).1
  · intro txs
    obtain ⟨h1, h2, h3⟩ := BlockBuilder.addAll_invariant evm Hevm txs b hgu hgl
    exact ⟨h2, h1 ▸ h3⟩

/-- Witness for C2 at a concrete builder and transaction sequence. -/
theorem C2_gas_used_accounting_witness :
    bldr100.header.gas_used ≤
      (BlockBuilder.addAll evmMin bldr100 [tx50, tx50]).header.gas_used ∧
    (BlockBuilder.addAll evmMin bldr100 [tx50, tx50]).header.gas_used ≤
      bldr100.header.gas_limit :=
  (C2_gas_used_accounting evmMin bldr100
    (fun _ transaction _ _ => Nat.min_le_left transaction.gas_limit 21000)
    (by decide) (by decide)).2 [tx50, tx50]

/-- C3 (counterexample): at a configuration exactly at the merge spec and a
block environment with no random-beacon value, `dry_run` does not fail with
`MissingPrevrandao` — it executes and returns `ok` — because the source
guards with a strict comparison `spec_id > SpecId::MERGE`. The claim's "at or
beyond the merge transition" is therefore false at `spec_id = MERGE`. -/
theorem C3_counterexample_at_merge :
    rethnetMerge.cfg.spec_id = SpecId.MERGE ∧
    blockNoRandao.prevrandao = none ∧
    Rethnet.dry_run evmWrite7 rethnetMerge tx50 blockNoRandao =
      Except.ok ({ gas_used := 5, payload := 0 },
        [(1, { balance := 7, nonce := 0, code := 0 })], [3]) ∧
    Rethnet.dry_run evmWrite7 rethnetMerge tx50 blockNoRandao ≠
      Except.error TransactionError.MissingPrevrandao := by
  refine ⟨rfl, rfl, rfl, ?_⟩
  intro hcontra
  rw [show Rethnet.dry_run evmWrite7 rethnetMerge tx50 blockNoRandao =
      Except.ok ({ gas_used := 5, payload := 0 },
        [(1, { balance := 7, nonce := 0, code := 0 })], [3]) from rfl] at hcontra
  exact Except.noConfusion hcontra

/-- C3 (amended): for a spec strictly beyond `MERGE` and a block environment
with no random-beacon value, all three Executor entry points fail with
`MissingPrevrandao`; the outcome is identical for every interpreter (zero
interpreter invocations) and `run` returns its runtime — store included —
unchanged (`dry_run` and `guaranteed_dry_run` take `&self` and never write
the store). -/
theorem C3_missing_prevrandao_strictly_past_merge (r : Rethnet)
    (transaction : TxEnv) (block : BlockEnv)
    (hspec : SpecId.MERGE < r.cfg.spec_id)
    (hrandao : block.prevrandao = none) :
    ∀ evm : EvmSem,
      Rethnet.dry_run evm r transaction block =
        Except.error TransactionError.MissingPrevrandao ∧
      Rethnet.guaranteed_dry_run evm r transaction block =
        Except.error TransactionError.MissingPrevrandao ∧
      Rethnet.run evm r transaction block =
        (Except.error TransactionError.MissingPrevrandao, r) := by
  intro evm
  have hd : Rethnet.dry_run evm r transaction block =
      Except.error TransactionError.MissingPrevrandao := by
    unfold Rethnet.dry_run
    rw [if_pos ⟨hspec, hrandao⟩]
  refine ⟨hd, ?_, ?_⟩
  · unfold Rethnet.guaranteed_dry_run
    rw [if_pos ⟨hspec, hrandao⟩]
  · unfold Rethnet.run
    rw [hd]

/-- Witness for the amended C3 at a concrete post-merge runtime. -/
theorem C3_missing_prevrandao_strictly_past_merge_witness :
    Rethnet.dry_run evmWrite7 rethnetPost tx50 blockNoRandao =
      Except.error TransactionError.MissingPrevrandao :=
  (C3_missing_prevrandao_strictly_past_merge rethnetPost tx50 blockNoRandao
    (by decide) rfl evmWrite7).1

/-- C4: when `dry_run` succeeds with (result, changeset, trace), `run` on the
identical inputs returns the identical result and trace, and its runtime's
store is the input store with exactly that changeset applied (checkpoint
history, blockchain view and configuration untouched); `dry_run` itself
returns no store — it takes `&self` and never calls `apply`, so the store is
unchanged by it. -/
theorem C4_run_refines_dry_run (evm : EvmSem) (r : Rethnet)
    (transaction : TxEnv) (block : BlockEnv) (res : ExecutionResult)
    (changes : Changes) (trace : Trace)
    (h : Rethnet.dry_run evm r transaction block =
      Except.ok (res, changes, trace)) :
    (Rethnet.run evm r transaction block).1 = Except.ok (res, trace) ∧
    (Rethnet.run evm r transaction block).2.db.state =
      applyChanges r.db.state changes ∧
    (Rethnet.run evm r transaction block).2.db.checkpoints =
      r.db.checkpoints ∧
    (Rethnet.run evm r transaction block).2.blockchain = r.blockchain ∧
    (Rethnet.run evm r transaction block).2.cfg = r.cfg := by
  unfold Rethnet.run
  rw [h]
  exact ⟨rfl, rfl, rfl, rfl, rfl⟩

/-- Witness for C4 at a concrete runtime, transaction and block. -/
theorem C4_run_refines_dry_run_witness :
    (Rethnet.run evmWrite7 rethnetMerge tx50 blockNoRandao).1 =
      Except.ok ({ gas_used := 5, payload := 0 }, [3]) :=
  (C4_run_refines_dry_run evmWrite7 rethnetMerge tx50 blockNoRandao
    { gas_used := 5, payload := 0 }
    [(1, { balance := 7, nonce := 0, code := 0 })] [3] rfl).1

/-- C5 (evaluation at the failing input): `BlockBuilder::new` takes no
checkpoint — the source's `db.checkpoint()` call is a commented-out TODO,
although `new`'s own doc comment promises "creating a checkpoint in the
process". Over a store with no prior checkpoint, one successful
`add_transaction` changes the store, and `abort` then fails with a revert
error instead of restoring the construction-time state. -/
theorem C5_abort_does_not_restore :
    ((BlockBuilder.add_transaction evmWrite7
        (BlockBuilder.new 0 dbEmpty cfgMerge parentHeader noOverrides)
        tx50).1).isOk = true ∧
    (BlockBuilder.add_transaction evmWrite7
        (BlockBuilder.new 0 dbEmpty cfgMerge parentHeader noOverrides)
        tx50).2.db.state 1 ≠
      (BlockBuilder.new 0 dbEmpty cfgMerge parentHeader noOverrides).db.state 1 ∧
    BlockBuilder.abort
      (BlockBuilder.add_transaction evmWrite7
        (BlockBuilder.new 0 dbEmpty cfgMerge parentHeader noOverrides)
        tx50).2 =
      Except.error StateError.nothingToRevert := by
  refine ⟨rfl, by decide, rfl⟩

/-- C7 (evaluation): construction computes the header exactly as described —
parent hash from the parent header, number = parent's number + 1, gas limit
from the parent, overrides honoured, all other fields type defaults — but it
captures no State Store checkpoint: the builder's store is the input store,
checkpoint history included, because the source's `db.checkpoint()` call is a
commented-out TODO. -/
theorem C7_new_header_but_no_checkpoint :
    (BlockBuilder.new 0 dbEmpty cfgMerge parentHeader noOverrides).header =
      { PartialHeader.default with
        parent_hash := 11, number := 42, gas_limit := 1000 } ∧
    (BlockBuilder.new 0 dbEmpty cfgMerge parentHeader allOverrides).header =
      { PartialHeader.default with
        parent_hash := 77, number := 90, gas_limit := 555 } ∧
    (BlockBuilder.new 0 dbEmpty cfgMerge parentHeader noOverrides).transactions
      = [] ∧
    (BlockBuilder.new 0 dbEmpty cfgMerge parentHeader noOverrides).db =
      dbEmpty := by
  refine ⟨by decide, by decide, rfl, rfl⟩

/-- The state reached by finalize's reward fold, characterized per address:
in-order balance additions for the entries naming that address; nonce and
code unchanged. -/
theorem finalize_state_char (rewards : List (Nat × Nat)) :
    ∀ (db : AsyncDatabase) (a : Nat),
      (rewards.foldl
        (fun db p =>
          db.modifyAccount p.1 (fun balance nonce code =>
            (U256.add balance p.2, nonce, code)))
        db).state a =
      { balance := rewards.foldl
          (fun acc p => if a = p.1 then U256.add acc p.2 else acc)
          ((db.state a).balance)
        nonce := (db.state a).nonce
        code := (db.state a).code } := by
  induction rewards with
  | nil => intro db a; rfl
  | cons p rest ih =>
    intro db a
    show (rest.foldl _
      (db.modifyAccount p.1 (fun balance nonce code =>
        (U256.add balance p.2, nonce, code)))).state a = _
    rw [ih]
    by_cases hap : a = p.1
    · simp [AsyncDatabase.modifyAccount, hap]
    · simp [AsyncDatabase.modifyAccount, hap]

/-- C9: `finalize` performs one read-modify-write per reward entry in list
order: each adds its amount to its address's balance; nonce and code are
never changed. In particular `finalize [(A,5),(A,3)]` increases A's balance
by exactly 8 (when the balance does not overflow 2^256), both entries
applying even though they name the same address. -/
theorem C9_finalize_rewards (b : BlockBuilder) (rewards : List (Nat × Nat))
    (A : Nat) (h8 : (b.db.state A).balance + 8 < U256.W) :
    (∀ a : Nat,
        (BlockBuilder.finalize b rewards).state a =
          { balance := rewards.foldl
              (fun acc p => if a = p.1 then U256.add acc p.2 else acc)
              ((b.db.state a).balance)
            nonce := (b.db.state a).nonce
            code := (b.db.state a).code }) ∧
    ((BlockBuilder.finalize b [(A, 5), (A, 3)]).state A).balance =
      (b.db.state A).balance + 8 := by
  constructor
  · intro a
    exact finalize_state_char rewards b.db a
  · have h := finalize_state_char [(A, 5), (A, 3)] b.db A
    unfold BlockBuilder.finalize
    rw [h]
    simp only [List.foldl_cons, List.foldl_nil, eq_self_iff_true, if_true]
    rw [U256.add_eq_of_lt (b.db.state A).balance 5 (by omega)]
    rw [U256.add_eq_of_lt ((b.db.state A).balance + 5) 3 (by omega)]

/-- Witness for C9 at a concrete builder and address. -/
theorem C9_finalize_rewards_witness :
    ((BlockBuilder.finalize bldr100 [(1, 5), (1, 3)]).state 1).balance =
      (bldr100.db.state 1).balance + 8 :=
  (C9_finalize_rewards bldr100 [(1, 5), (1, 3)] 1 (by decide)).2

/-- C6: for the Dual (Both) compositor and every callback kind, the owned
collector's hook (the `immutable` inspector `A`) runs first and the borrowed
observer's hook (the `mutable` inspector `B`) runs second: `B` receives the
interpreter/context/inputs exactly as left by `A`, and — because the
`call_end`/`create_end` payloads are cloned before `A`'s invocation — the
original unmodified result payload. The value returned to the interpreter is
exactly `B`'s return value, and replacing `A`'s returned values by arbitrary
functions leaves every output of the dual unchanged. -/
theorem C6_dual_dispatch {SA SB : Type} (A : InspectorSem SA)
    (B : InspectorSem SB) (sa : SA) (sb : SB)
    (interp context inputs result contract target value : Nat)
    (args : Nat × List Nat × List Nat) (address : Option Nat) :
    ((DualInspector.sem A B).initInterp (sa, sb) interp context =
      (let pa := A.initInterp sa interp context
       let pb := B.initInterp sb pa.2.1 pa.2.2
       ((pa.1, pb.1), pb.2.1, pb.2.2))) ∧
    ((DualInspector.sem A B).step (sa, sb) interp context =
      (let pa := A.step sa interp context
       let pb := B.step sb pa.2.1 pa.2.2
       ((pa.1, pb.1), pb.2.1, pb.2.2))) ∧
    ((DualInspector.sem A B).log (sa, sb) context args =
      (let pa := A.log sa context args
       let pb := B.log sb pa.2 args
       ((pa.1, pb.1), pb.2))) ∧
    ((DualInspector.sem A B).step_end (sa, sb) interp context =
      (let pa := A.step_end sa interp context
       let pb := B.step_end sb pa.2.1 pa.2.2
       ((pa.1, pb.1), pb.2.1, pb.2.2))) ∧
    ((DualInspector.sem A B).call (sa, sb) context inputs =
      (let pa := A.call sa context inputs
       let pb := B.call sb pa.2.1 pa.2.2.1
       ((pa.1, pb.1), pb.2.1, pb.2.2.1, pb.2.2.2))) ∧
    ((DualInspector.sem A B).call_end (sa, sb) context result =
      (let pa := A.call_end sa context result
       let pb := B.call_end sb pa.2.1 result
       ((pa.1, pb.1), pb.2.1, pb.2.2))) ∧
    ((DualInspector.sem A B).create (sa, sb) context inputs =
      (let pa := A.create sa context inputs
       let pb := B.create sb pa.2.1 pa.2.2.1
       ((pa.1, pb.1), pb.2.1, pb.2.2.1, pb.2.2.2))) ∧
    ((DualInspector.sem A B).create_end (sa, sb) context result address =
      (let pa := A.create_end sa context result address
       let pb := B.create_end sb pa.2.1 result address
       ((pa.1, pb.1), pb.2.1, pb.2.2))) ∧
    ((DualInspector.sem A B).selfdestruct (sa, sb) contract target value =
      (A.selfdestruct sa contract target value,
       B.selfdestruct sb contract target value)) ∧
    (∀ fCall fCallEnd fCreate fCreateEnd,
      (DualInspector.sem (A.withReturns fCall fCallEnd fCreate fCreateEnd) B).call
          (sa, sb) context inputs =
        (DualInspector.sem A B).call (sa, sb) context inputs ∧
      (DualInspector.sem (A.withReturns fCall fCallEnd fCreate fCreateEnd) B).call_end
          (sa, sb) context result =
        (DualInspector.sem A B).call_end (sa, sb) context result ∧
      (DualInspector.sem (A.withReturns fCall fCallEnd fCreate fCreateEnd) B).create
          (sa, sb) context inputs =
        (DualInspector.sem A B).create (sa, sb) context inputs ∧
      (DualInspector.sem (A.withReturns fCall fCallEnd fCreate fCreateEnd) B).create_end
          (sa, sb) context result address =
        (DualInspector.sem A B).create_end (sa, sb) context result address) :=
  ⟨rfl, rfl, rfl, rfl, rfl, rfl, rfl, rfl, rfl,
   fun _ _ _ _ => ⟨rfl, rfl, rfl, rfl⟩⟩

/-- C8: `clear_trace` returns the accumulated trace and swaps in a fresh
empty collector exactly for the collector-owning variants — Collector
(TracerOnly) and Dual (Both), the latter keeping its borrowed observer —
and returns nothing, leaving the container unchanged, for the None (Absent)
and Inspector (InspectorOnly) variants. The swapped-in collector's trace is
empty, so the compositor is ready to start an empty trace for the next
execution. -/
theorem C8_clear_trace_behaviour {Obs : Type} (c : TraceCollector) (o : Obs) :
    InspectorContainer.clear_trace
        (InspectorContainer.none : InspectorContainer Obs) =
      (Option.none, InspectorContainer.none) ∧
    InspectorContainer.clear_trace (InspectorContainer.inspector o) =
      (Option.none, InspectorContainer.inspector o) ∧
    InspectorContainer.clear_trace
        (InspectorContainer.collector c : InspectorContainer Obs) =
      (some c.intoTrace, InspectorContainer.collector TraceCollector.empty) ∧
    InspectorContainer.clear_trace (InspectorContainer.dual c o) =
      (some c.intoTrace, InspectorContainer.dual TraceCollector.empty o) ∧
    TraceCollector.empty.trace = [] :=
  ⟨rfl, rfl, rfl, rfl, rfl⟩

/-! ## Round-trip lemmas for the RLP model -/

theorem exceptBindOk {ε α β : Type} (a : α) (f : α → Except ε β) :
    (Except.ok a : Except ε α) >>= f = f a := rfl

theorem leDigits_pos_eq (n : Nat) (h : 0 < n) :
    leDigits n = n % 256 :: leDigits (n / 256) := by
  cases n with
  | zero => omega
  | succ m => simp [leDigits]

theorem fromBE_append (bs : List Nat) (b : Nat) :
    fromBE (bs ++ [b]) = fromBE bs * 256 + b := by
  unfold fromBE
  rw [List.foldl_append]
  rfl

theorem leDigits_zero : leDigits 0 = [] := by
  simp [leDigits]

theorem fromBE_beBytes (n : Nat) : fromBE (beBytes n) = n := by
  induction n using Nat.strong_induction_on with
  | _ n ih =>
    rcases Nat.eq_zero_or_pos n with h0 | hpos
    · subst h0
      unfold beBytes
      rw [leDigits_zero]
      rfl
    · unfold beBytes
      rw [leDigits_pos_eq n hpos, List.reverse_cons, fromBE_append]
      have hdiv := ih (n / 256) (Nat.div_lt_self hpos (by omega))
      unfold beBytes at hdiv
      rw [hdiv]
      omega

theorem leDigits_msd : ∀ n : Nat, 0 < n →
    ∃ l d, leDigits n = l ++ [d] ∧ d ≠ 0 := by
  intro n
  induction n using Nat.strong_induction_on with
  | _ n ih =>
    intro hpos
    rw [leDigits_pos_eq n hpos]
    rcases Nat.eq_zero_or_pos (n / 256) with hdz | hdp
    · rw [hdz]
      refine ⟨[], n % 256, by simp [leDigits], ?_⟩
      omega
    · obtain ⟨l, d, hl, hd⟩ := ih (n / 256) (Nat.div_lt_self hpos (by omega)) hdp
      exact ⟨n % 256 :: l, d, by rw [hl, List.cons_append], hd⟩

theorem leDigits_length_le : ∀ k n : Nat, n < 256 ^ k →
    (leDigits n).length ≤ k := by
  intro k
  induction k with
  | zero =>
    intro n hn
    have h0 : n = 0 := by simpa using hn
    subst h0
    simp [leDigits]
  | succ k ih =>
    intro n hn
    rcases Nat.eq_zero_or_pos n with h0 | hpos
    · subst h0; simp [leDigits]
    · rw [leDigits_pos_eq n hpos]
      simp only [List.length_cons]
      have hdiv : n / 256 < 256 ^ k := by
        have h2 : n < 256 ^ k * 256 := by
          rw [pow_succ] at hn
          exact hn
        exact (Nat.div_lt_iff_lt_mul (by omega)).mpr h2
      have := ih (n / 256) hdiv
      omega

/-- The integer codec round-trips on values fitting in `maxLen` bytes. -/
theorem decUIntBytes_beBytes (maxLen n : Nat) (h : n < 256 ^ maxLen) :
    decUIntBytes maxLen (beBytes n) = Except.ok n := by
  rcases Nat.eq_zero_or_pos n with h0 | hpos
  · subst h0
    unfold beBytes
    rw [leDigits_zero]
    rfl
  · obtain ⟨l, d, hl, hd⟩ := leDigits_msd n hpos
    have hbe : beBytes n = d :: l.reverse := by
      unfold beBytes
      rw [hl, List.reverse_append]
      simp
    have hlen : (beBytes n).length ≤ maxLen := by
      unfold beBytes
      rw [List.length_reverse]
      exact leDigits_length_le maxLen n h
    have hfro : fromBE (beBytes n) = n := fromBE_beBytes n
    rw [hbe] at hlen hfro ⊢
    show (if d = 0 then Except.error DecoderError.RlpInvalidIndirection
      else if (d :: l.reverse).length ≤ maxLen then
        Except.ok (fromBE (d :: l.reverse))
      else Except.error DecoderError.RlpIsTooBig) = Except.ok n
    rw [if_neg hd, if_pos hlen, hfro]

/-- Fetching an integer item out of a list by index. -/
theorem valNatAt_list (maxLen : Nat) (l : List RlpItem) (i : Nat)
    (bs : List Nat) (hget : l[i]? = some (RlpItem.str bs)) :
    valNatAt maxLen (RlpItem.list l) i = decUIntBytes maxLen bs := by
  have hv : (RlpItem.list l).valAt i = Except.ok (RlpItem.str bs) := by
    simp [RlpItem.valAt, hget]
  unfold valNatAt
  rw [hv]
  rfl

/-- The kind codec round-trips on well-formed kinds. -/
theorem kind_decode_roundtrip (k : TransactionKind) (hk : k.wf) :
    TransactionKind.decode k.rlpAppend = Except.ok k := by
  cases k with
  | create => rfl
  | call a =>
    unfold TransactionKind.wf at hk
    cases a with
    | nil => simp at hk
    | cons x xs =>
      show (if (x :: xs).isEmpty then
          (pure TransactionKind.create : Except DecoderError TransactionKind)
        else if (x :: xs).length = 20 then pure (TransactionKind.call (x :: xs))
        else throw DecoderError.RlpInvalidLength) =
        Except.ok (TransactionKind.call (x :: xs))
      rw [if_neg (by simp), if_pos hk]
      rfl

/-- Fetching the kind item out of a list by index. -/
theorem valKindAt_list (l : List RlpItem) (i : Nat) (it : RlpItem)
    (hget : l[i]? = some it) :
    valKindAt (RlpItem.list l) i = TransactionKind.decode it := by
  have hv : (RlpItem.list l).valAt i = Except.ok it := by
    simp [RlpItem.valAt, hget]
  unfold valKindAt
  rw [hv]
  rfl

/-- Fetching a raw byte-string item out of a list by index. -/
theorem valBytesAt_list (l : List RlpItem) (i : Nat) (bs : List Nat)
    (hget : l[i]? = some (RlpItem.str bs)) :
    valBytesAt (RlpItem.list l) i = Except.ok bs := by
  have hv : (RlpItem.list l).valAt i = Except.ok (RlpItem.str bs) := by
    simp [RlpItem.valAt, hget]
  unfold valBytesAt
  rw [hv]
  rfl

/-- The decoder on a 9-item list, in terms of the per-index field decodes. -/
theorem decode_nine (i0 i1 i2 i3 i4 i5 i6 i7 i8 : RlpItem)
    (nonce gas_price gas_limit value r s v : Nat) (kind : TransactionKind)
    (input : List Nat)
    (h6 : valNatAt 8 (RlpItem.list [i0, i1, i2, i3, i4, i5, i6, i7, i8]) 6 =
      Except.ok v)
    (h7 : valNatAt 32 (RlpItem.list [i0, i1, i2, i3, i4, i5, i6, i7, i8]) 7 =
      Except.ok r)
    (h8 : valNatAt 32 (RlpItem.list [i0, i1, i2, i3, i4, i5, i6, i7, i8]) 8 =
      Except.ok s)
    (h0 : valNatAt 8 (RlpItem.list [i0, i1, i2, i3, i4, i5, i6, i7, i8]) 0 =
      Except.ok nonce)
    (h1 : valNatAt 32 (RlpItem.list [i0, i1, i2, i3, i4, i5, i6, i7, i8]) 1 =
      Except.ok gas_price)
    (h2 : valNatAt 8 (RlpItem.list [i0, i1, i2, i3, i4, i5, i6, i7, i8]) 2 =
      Except.ok gas_limit)
    (h3 : valKindAt (RlpItem.list [i0, i1, i2, i3, i4, i5, i6, i7, i8]) 3 =
      Except.ok kind)
    (h4 : valNatAt 32 (RlpItem.list [i0, i1, i2, i3, i4, i5, i6, i7, i8]) 4 =
      Except.ok value)
    (h5 : valBytesAt (RlpItem.list [i0, i1, i2, i3, i4, i5, i6, i7, i8]) 5 =
      Except.ok input) :
    LegacySignedTransaction.decode
        (RlpItem.list [i0, i1, i2, i3, i4, i5, i6, i7, i8]) =
      Except.ok
        { nonce := nonce, gas_price := gas_price, gas_limit := gas_limit
          kind := kind, value := value, input := input
          signature := { r := r, s := s, v := v } } := by
  unfold LegacySignedTransaction.decode
  rw [show RlpItem.itemCount
      (RlpItem.list [i0, i1, i2, i3, i4, i5, i6, i7, i8]) =
      Except.ok 9 from rfl]
  rw [exceptBindOk]
  rw [if_neg (by decide)]
  rw [h6, exceptBindOk, h7, exceptBindOk, h8, exceptBindOk, h0, exceptBindOk,
      h1, exceptBindOk, h2, exceptBindOk, h3, exceptBindOk, h4, exceptBindOk,
      h5, exceptBindOk]
  rfl

/-- C10: for every legacy signed transaction whose numeric fields fit their
machine types (`u64` for nonce, gas limit, v; `U256` for gas price, value,
r, s) and whose call address, if any, is 20 bytes, the encoder emits a
9-item list of nonce, gas_price, gas_limit, kind, value, input, v, r, s;
decoding that encoding succeeds and yields the original transaction; and the
decoder rejects any list whose item count differs from 9 with
`RlpIncorrectListLen`. -/
theorem C10_legacy_rlp_roundtrip (t : LegacySignedTransaction)
    (hnonce : t.nonce < 256 ^ 8) (hgp : t.gas_price < 256 ^ 32)
    (hglim : t.gas_limit < 256 ^ 8) (hval : t.value < 256 ^ 32)
    (hv : t.signature.v < 256 ^ 8) (hr : t.signature.r < 256 ^ 32)
    (hs : t.signature.s < 256 ^ 32) (hkind : t.kind.wf) :
    (∃ l, LegacySignedTransaction.rlpAppend t = RlpItem.list l ∧
      l.length = 9) ∧
    LegacySignedTransaction.decode (LegacySignedTransaction.rlpAppend t) =
      Except.ok t ∧
    (∀ items : List RlpItem, items.length ≠ 9 →
      LegacySignedTransaction.decode (RlpItem.list items) =
        Except.error DecoderError.RlpIncorrectListLen) := by
  refine ⟨⟨_, rfl, rfl⟩, ?_, ?_⟩
  · show LegacySignedTransaction.decode
      (RlpItem.list
        [encU t.nonce, encU t.gas_price, encU t.gas_limit, t.kind.rlpAppend,
         encU t.value, RlpItem.str t.input, encU t.signature.v,
         encU t.signature.r, encU t.signature.s]) = Except.ok t
    exact decode_nine _ _ _ _ _ _ _ _ _ t.nonce t.gas_price t.gas_limit
      t.value t.signature.r t.signature.s t.signature.v t.kind t.input
      ((valNatAt_list 8 _ 6 (beBytes t.signature.v) rfl).trans
        (decUIntBytes_beBytes 8 t.signature.v hv))
      ((valNatAt_list 32 _ 7 (beBytes t.signature.r) rfl).trans
        (decUIntBytes_beBytes 32 t.signature.r hr))
      ((valNatAt_list 32 _ 8 (beBytes t.signature.s) rfl).trans
        (decUIntBytes_beBytes 32 t.signature.s hs))
      ((valNatAt_list 8 _ 0 (beBytes t.nonce) rfl).trans
        (decUIntBytes_beBytes 8 t.nonce hnonce))
      ((valNatAt_list 32 _ 1 (beBytes t.gas_price) rfl).trans
        (decUIntBytes_beBytes 32 t.gas_price hgp))
      ((valNatAt_list 8 _ 2 (beBytes t.gas_limit) rfl).trans
        (decUIntBytes_beBytes 8 t.gas_limit hglim))
      ((valKindAt_list _ 3 t.kind.rlpAppend rfl).trans
        (kind_decode_roundtrip t.kind hkind))
      ((valNatAt_list 32 _ 4 (beBytes t.value) rfl).trans
        (decUIntBytes_beBytes 32 t.value hval))
      (valBytesAt_list _ 5 t.input rfl)
  · intro items hne
    unfold LegacySignedTransaction.decode
    rw [show RlpItem.itemCount (RlpItem.list items) =
        Except.ok items.length from rfl]
    rw [exceptBindOk]
    rw [if_pos hne]
    rfl

/-- Witness for C10 at a concrete legacy transaction. -/
theorem C10_legacy_rlp_roundtrip_witness :
    LegacySignedTransaction.decode
        (LegacySignedTransaction.rlpAppend legacyTxC) =
      Except.ok legacyTxC :=
  (C10_legacy_rlp_roundtrip legacyTxC (by decide) (by decide) (by decide)
    (by decide) (by decide) (by decide) (by decide) True.intro).2.1
